import Mathlib

/-!
Shallow embedding of the HRMS leave / holiday / audit core
(apps/leaves, apps/holidays, apps/audit, apps/base/utils.py), with
theorems settling the specification claims about it.

Dates are modelled as year/month/day triples together with a serial-day
number (`Date.serial`, the standard civil-calendar day count); Python's
`date` arithmetic (`timedelta` addition, subtraction of dates, `weekday()`,
ordering and equality) corresponds to arithmetic on the serial numbers.
Decimal leave amounts (0.5-day granularity) are modelled as rationals.
-/

/-- Gregorian leap-year test (as Python's `calendar.isleap` /
`date.replace` validity uses it). -/
def isLeapYear (y : Nat) : Bool :=
  y % 4 == 0 && (y % 100 != 0 || y % 400 == 0)

/-- Number of days in month `m` of year `y`. -/
def daysInMonth (y m : Nat) : Nat :=
  if m = 2 then (if isLeapYear y then 29 else 28)
  else if m = 4 ∨ m = 6 ∨ m = 9 ∨ m = 11 then 30
  else 31

/-- A calendar date, as stored in a Python `datetime.date`. -/
structure Date where
  year : Nat
  month : Nat
  day : Nat
deriving DecidableEq, Repr

/-- Validity of a year/month/day triple (what `datetime.date` enforces at
construction, and what `date.replace` re-checks). -/
def Date.valid (d : Date) : Prop :=
  1 ≤ d.year ∧ 1 ≤ d.month ∧ d.month ≤ 12 ∧ 1 ≤ d.day ∧ d.day ≤ daysInMonth d.year d.month

instance (d : Date) : Decidable d.valid := by
  unfold Date.valid; infer_instance

/-- Serial day number of a date (days-from-civil algorithm); Python date
ordering, equality and `timedelta` arithmetic agree with the corresponding
operations on serial numbers. -/
def Date.serial (d : Date) : Nat :=
  let yy := if d.month ≤ 2 then d.year - 1 else d.year
  let era := yy / 400
  let yoe := yy - era * 400
  let mp := (d.month + 9) % 12
  let doy := (153 * mp + 2) / 5 + d.day - 1
  let doe := yoe * 365 + yoe / 4 - yoe / 100 + doy
  era * 146097 + doe

/-- Python `date.weekday()` on the serial-number representation:
0 = Monday, ..., 5 = Saturday, 6 = Sunday (calibrated so that the serial of
2026-01-12, a Monday, maps to 0). -/
def pyWeekday (serial : Nat) : Nat :=
  (serial + 2) % 7

/-- A serial day is a weekday (`weekday() < 5`, i.e. Monday-Friday). -/
def isWeekdaySerial (serial : Nat) : Bool :=
  pyWeekday serial < 5

/-- Python `d.replace(year = y)`: same month/day in year `y`; raises
`ValueError` (here: `none`) when the result is not a valid date
(February 29 of a non-leap year). -/
def Date.replaceYear (d : Date) (y : Nat) : Option Date :=
  if (Date.mk y d.month d.day).valid then some (Date.mk y d.month d.day) else none

/-! ## Leave request status and duration (apps/leaves/models.py) -/

/-- Embeds `LeaveRequest.STATUS_CHOICES`. -/
inductive Status where
  | PENDING
  | APPROVED
  | REJECTED
  | CANCELLED
deriving DecidableEq, Repr

/-- The fields of a `LeaveRequest` that the ledger signal reads: status,
half-day flag and the date range (dates given by their serial numbers). -/
structure ReqFields where
  status : Status
  is_half_day : Bool
  start_serial : Nat
  end_serial : Nat
deriving DecidableEq, Repr

/-- Embeds `LeaveRequest.duration` (models.py): 0.5 for a half-day; otherwise the
number of days in `[start_date, end_date]` whose weekday is Mon-Fri.
Weekends are excluded; holidays are NOT consulted here. The Python loop
runs `x` over `range((end - start).days + 1)` and counts
`(start + timedelta(days = x)).weekday() < 5`. -/
def ReqFields.duration (f : ReqFields) : ℚ :=
  if f.is_half_day then 1 / 2
  else
    let total_days := f.end_serial + 1 - f.start_serial
    ((List.range total_days).countP
      (fun x => isWeekdaySerial (f.start_serial + x)) : ℚ)

/-! ## The ledger signal (apps/leaves/signals.py) -/

/-- The state the two `LeaveRequest` signal handlers interact with, for one
request and its matching `LeaveBalance` row: the request's status as stored
in the database (what `capture_previous_status` reads back), and that
row's `used_leaves`. -/
structure LRState where
  status : Status
  used : ℚ
deriving DecidableEq, Repr

/-- One save of an existing `LeaveRequest`, as the pre_save/post_save pair
executes it: `capture_previous_status` reads the old status from the row,
the save writes the new fields, and `update_leave_balance_on_status_change`
(with `created = False`) compares old and new status: it adds
`instance.duration` to `used_leaves` when the status becomes APPROVED from
a non-APPROVED status, subtracts it when the status leaves APPROVED, and
otherwise (status unchanged, or a transition between two non-APPROVED
statuses) leaves the balance alone. -/
def leaveSave (s : LRState) (f : ReqFields) : LRState :=
  let old_status := s.status
  let new_status := f.status
  if old_status = new_status then { s with status := new_status }
  else if new_status = Status.APPROVED ∧ old_status ≠ Status.APPROVED then
    { status := new_status, used := s.used + f.duration }
  else if old_status = Status.APPROVED ∧ new_status ≠ Status.APPROVED then
    { status := new_status, used := s.used - f.duration }
  else
    { s with status := new_status }

/-- Creation of a `LeaveRequest` (`post_save` with `created = True`): the
handler returns immediately, so the balance is untouched; the row now holds
the created status. -/
def leaveCreate (f : ReqFields) (used : ℚ) : LRState :=
  { status := f.status, used := used }

/-- Net number of entries into APPROVED minus exits from APPROVED along a
status trace starting from `prev`. -/
def netApprovedEntries : Status → List Status → ℤ
  | _, [] => 0
  | prev, s :: rest =>
    (if s = Status.APPROVED ∧ prev ≠ Status.APPROVED then 1
     else if prev = Status.APPROVED ∧ s ≠ Status.APPROVED then -1
     else 0) + netApprovedEntries s rest

/-! ## Holiday rows (apps/holidays/models.py) -/

/-- A row of the `holidays` table. `region` is a CharField with
`blank=True`: the empty string means company-wide. `recurring_group_id` is
a nullable UUID, modelled by an optional natural number. `is_active` and
`is_deleted` come from `BaseTemplateModel`. `pk` is the database primary
key. -/
structure HolidayRow where
  pk : Nat
  date : Date
  name : String
  description : String
  is_recurring : Bool
  recurring_group_id : Option Nat
  region : String
  is_working_day : Bool
  is_active : Bool
  is_deleted : Bool
deriving DecidableEq, Repr

/-- The holidays table: a list of rows. -/
abbrev HolidayDb := List HolidayRow

/-! ## calculate_working_days (apps/base/utils.py) -/

/-- Python truthiness of the `region` argument (`if region:`): `None` and
the empty string are falsy, any other string is truthy. -/
def regionTruthy : Option String → Bool
  | none => false
  | some r => r ≠ ""

/-- The holiday queryset of `calculate_working_days`:
`Holiday.objects.filter(date__gte=start, date__lte=end, is_active=True,
is_deleted=False)`, further filtered by `region=region` when the region
argument is truthy. Date comparisons are serial-number comparisons. -/
def holidaysQuery (db : HolidayDb) (start_d end_d : Date) (region : Option String) : List HolidayRow :=
  let q := db.filter (fun h =>
    start_d.serial ≤ h.date.serial && h.date.serial ≤ end_d.serial &&
    h.is_active && !h.is_deleted)
  match region with
  | none => q
  | some r => if r ≠ "" then q.filter (fun h => h.region == r) else q

/-- One element of the `excluded_holidays` result list:
`{'date': str(holiday.date), 'name': holiday.name,
'region': holiday.region or 'All'}`. -/
structure ExcludedHoliday where
  date : Date
  name : String
  region : String
deriving DecidableEq, Repr

/-- Embeds `calculate_working_days(start_date, end_date, region=None)`
(apps/base/utils.py): builds the active-holiday queryset for the range,
takes the set of its dates, reports the queryset rows as
`excluded_holidays`, and counts the days `start + x` for
`x in range((end - start).days + 1)` whose weekday is Mon-Fri and whose
date is not in the holiday-date set. (The `if not start_date or not
end_date` guard handles absent arguments, which cannot arise here since
both dates are given.) -/
def calculate_working_days (db : HolidayDb) (start_d end_d : Date) (region : Option String) :
    Nat × List ExcludedHoliday :=
  let q := holidaysQuery db start_d end_d region
  let holiday_dates := q.map (fun h => h.date.serial)
  let excluded_holidays := q.map (fun h =>
    ExcludedHoliday.mk h.date h.name (if h.region = "" then ("All") else h.region))
  let total_days := end_d.serial + 1 - start_d.serial
  let working_days := (List.range total_days).countP (fun x =>
    isWeekdaySerial (start_d.serial + x) && !holiday_dates.contains (start_d.serial + x))
  (working_days, excluded_holidays)

/-- Embeds `is_weekend` (apps/base/utils.py): `weekday() >= 5`. -/
def is_weekend (d : Date) : Bool :=
  pyWeekday d.serial ≥ 5

/-! ## LeaveRequestSerializer.validate (apps/leaves/serializers.py) -/

/-- The fields of an existing `LeaveRequest` row that the overlap check
reads. -/
structure ExistingRequest where
  start_serial : Nat
  end_serial : Nat
  status : Status
deriving DecidableEq, Repr

/-- Step 4 of `LeaveRequestSerializer.validate` on create (no
`self.instance`): the new request is rejected iff the employee has a
request with status PENDING or APPROVED satisfying
`start_date <= new.end_date` and `end_date >= new.start_date`.
Returns `true` when a conflict exists (a `ValidationError` is raised). -/
def overlapConflict (existing : List ExistingRequest) (start_s end_s : Nat) : Bool :=
  (existing.filter (fun r => r.status = Status.PENDING ∨ r.status = Status.APPROVED)).any
    (fun r => r.start_serial ≤ end_s && r.end_serial ≥ start_s)

/-- A `LeaveBalance` row (apps/leaves/models.py): decimal allocation and
usage; `remaining_leaves` is the derived difference. -/
structure BalanceRow where
  employee : Nat
  leave_type : String
  total_allocated : ℚ
  used_leaves : ℚ
deriving DecidableEq, Repr

/-- Embeds `LeaveBalance.remaining_leaves` (a property, never stored). -/
def BalanceRow.remaining_leaves (b : BalanceRow) : ℚ :=
  b.total_allocated - b.used_leaves

/-- Outcome of step 5 (balance check) of
`LeaveRequestSerializer.validate`. -/
inductive BalanceCheckResult where
  | ok
  | insufficientBalance (remaining : ℚ) (leave_type : String)
  | balanceRecordMissing (leave_type : String)
deriving DecidableEq, Repr

/-- Embeds `days_requested` of step 5: 0.5 for a half-day, otherwise the working
days of `calculate_working_days(start, end)` — region defaulted, so the
holiday calendar applies in full. -/
def daysRequested (db : HolidayDb) (is_half_day : Bool) (start_d end_d : Date) : ℚ :=
  if is_half_day then 1 / 2
  else ((calculate_working_days db start_d end_d none).1 : ℚ)

/-- Step 5 of `LeaveRequestSerializer.validate` on POST: fetch the
employee's `LeaveBalance` row for the leave type (`none` models
`DoesNotExist`); raise the insufficient-balance error, which reports the
remaining balance and the leave type, iff
`balance_record.remaining_leaves < days_requested`. -/
def balanceCheck (balance : Option BalanceRow) (leave_type : String) (days_requested : ℚ) :
    BalanceCheckResult :=
  match balance with
  | none => BalanceCheckResult.balanceRecordMissing leave_type
  | some b =>
    if b.remaining_leaves < days_requested then
      BalanceCheckResult.insufficientBalance b.remaining_leaves leave_type
    else BalanceCheckResult.ok

/-! ## Audit sanitization (apps/audit/signals.py) -/

/-- A value in a `changes` mapping: either a flat value (create/delete
snapshots map fields to plain values) or an update diff
`{'old': ..., 'new': ...}` (a Python dict value). -/
inductive ChangeVal where
  | flat (v : String)
  | diff (old : Option String) (new : Option String)
deriving DecidableEq, Repr

/-- Whether the value is a dict (`isinstance(v, dict)`). -/
def ChangeVal.isDict : ChangeVal → Bool
  | ChangeVal.flat _ => false
  | ChangeVal.diff _ _ => true

/-- Embeds `SENSITIVE_FIELDS` (apps/audit/signals.py). -/
def SENSITIVE_FIELDS : List String :=
  ["password", "is_superuser", "is_staff", "groups", "user_permissions"]

/-- The fixed mask string. -/
def MASK : String := "********"

/-- Embeds `sanitize_changes` (apps/audit/signals.py). The `changes` dict is an
association list (Python dicts have unique keys; replacing a key's value
keeps its position). An empty mapping comes back empty (`if not changes`);
if no value is a dict, every sensitive field's value is replaced by the
mask string; otherwise (the update-diff shape) every sensitive field's
value is replaced by `{'old': mask, 'new': mask}`. -/
def sanitize_changes (changes : List (String × ChangeVal)) : List (String × ChangeVal) :=
  if changes = [] then []
  else if !(changes.any (fun kv => kv.2.isDict)) then
    changes.map (fun kv =>
      if SENSITIVE_FIELDS.contains kv.1 then (kv.1, ChangeVal.flat MASK) else kv)
  else
    changes.map (fun kv =>
      if SENSITIVE_FIELDS.contains kv.1 then (kv.1, ChangeVal.diff (some MASK) (some MASK)) else kv)

/-! ## Leave-balance auto-creation (apps/leaves/signals.py) -/

/-- Embeds `LeaveRequest.LEAVE_TYPE_CHOICES` codes, in declaration order. -/
def LEAVE_TYPE_CHOICES : List String :=
  ["SICK", "CASUAL", "EARNED", "UNPAID"]

/-- The `defaults` dict of `create_leave_balances`, with `.get(code, 0)`
lookup. -/
def balanceDefault (code : String) : ℚ :=
  if code = "SICK" then 10
  else if code = "CASUAL" then 12
  else if code = "EARNED" then 15
  else if code = "UNPAID" then 0
  else 0

/-- Embeds `create_leave_balances` (post_save on Employee): when `created` is
true, bulk-create one `LeaveBalance` row per leave-type code, with
`total_allocated = defaults.get(code, 0)` and `used_leaves = 0`; when
`created` is false (any later save of the employee) the handler does
nothing. -/
def create_leave_balances (db : List BalanceRow) (emp : Nat) (created : Bool) : List BalanceRow :=
  if created then
    db ++ LEAVE_TYPE_CHOICES.map (fun code =>
      BalanceRow.mk emp code (balanceDefault code) 0)
  else db

/-! ## Holiday.save and recurring-holiday generation (apps/holidays/models.py) -/

/-- Embeds `Holiday.objects.filter(date=d, region=r).exists()`. -/
def existsDateRegion (db : HolidayDb) (d : Date) (r : String) : Bool :=
  db.any (fun h => h.date = d && h.region = r)

/-- The body of the `_generate_future_holidays` loop: for
`year_offset in range(1, 6)` compute `self.date.replace(year =
current_year + year_offset)` — which raises `ValueError` (modelled as
`Except.error`) for February 29 in a non-leap target year — and collect a
new row (same name, description, recurring flag, group id, region,
`is_working_day`, `is_active`) for each future date whose `(date, region)`
pair does not already exist in the database. -/
def collectFutureHolidays (db : HolidayDb) (h : HolidayRow) (gid : Nat) :
    List Nat → Except Unit (List HolidayRow)
  | [] => Except.ok []
  | year_offset :: rest =>
    match h.date.replaceYear (h.date.year + year_offset) with
    | none => Except.error ()
    | some future_date =>
      match collectFutureHolidays db h gid rest with
      | Except.error e => Except.error e
      | Except.ok tail =>
        if existsDateRegion db future_date h.region then Except.ok tail
        else Except.ok (HolidayRow.mk 0 future_date h.name h.description true (some gid)
          h.region h.is_working_day h.is_active false :: tail)

/-- Embeds `Holiday.objects.bulk_create(holidays_to_create)` against the database
state at insert time: a unique-constraint violation on `(date, region)` —
a row with the same pair already present — raises an `IntegrityError`
(modelled as `Except.error`, since `_generate_future_holidays` does not
catch it); otherwise the rows are appended. -/
def holidayBulkCreate (db : HolidayDb) (rows : List HolidayRow) : Except Unit HolidayDb :=
  if rows.any (fun r => existsDateRegion db r.date r.region) then Except.error ()
  else Except.ok (db ++ rows)

/-- Embeds `Holiday.save` on a new recurring holiday (`is_new`, `is_recurring`,
no group id yet): a fresh group id `gid` (`uuid.uuid4()`) is assigned,
`super().save()` persists the base row first, and then
`_generate_future_holidays` runs. The existence checks of the generation
loop read `checkDb` (the database as seen by the `exists()` queries) while
`bulk_create` inserts against `createDb'` (the database at insert time,
with the base row present); sequential execution is the case
`createDb = checkDb`. The result is the final database state paired with
a flag telling whether an uncaught exception escaped after the base row
was persisted. -/
def holidaySaveCreateTwoPhase (checkDb createDb : HolidayDb) (h : HolidayRow) (gid pk : Nat) :
    HolidayDb × Bool :=
  let base := { h with pk := pk, recurring_group_id := some gid, is_recurring := true }
  let checkDb' := checkDb ++ [base]
  let createDb' := createDb ++ [base]
  match collectFutureHolidays checkDb' base gid [1, 2, 3, 4, 5] with
  | Except.error _ => (createDb', true)
  | Except.ok rows =>
    if rows = [] then (createDb', false)
    else
      match holidayBulkCreate createDb' rows with
      | Except.error _ => (createDb', true)
      | Except.ok db' => (db', false)

/-- Sequential `Holiday.save` on a new recurring holiday: the existence
checks and the bulk insert see the same database. -/
def holidaySaveCreate (db : HolidayDb) (h : HolidayRow) (gid pk : Nat) : HolidayDb × Bool :=
  holidaySaveCreateTwoPhase db db h gid pk

/-- Embeds `_remove_future_recurring_holidays`: guard `if not
self.recurring_group_id: return`; then delete every row of the group dated
strictly after `today`, and clear `is_recurring` and `recurring_group_id`
on every remaining row of the group. -/
def removeFutureRecurringHolidays (today : Date) (db : HolidayDb) (gid : Option Nat) : HolidayDb :=
  match gid with
  | none => db
  | some g =>
    let db1 := db.filter (fun r =>
      !(r.recurring_group_id = some g && today.serial < r.date.serial))
    db1.map (fun r =>
      if r.recurring_group_id = some (g) then
        { r with is_recurring := false, recurring_group_id := none }
      else r)

/-- Embeds `Holiday.save` on an existing holiday whose `is_recurring` flag is
being switched off (`was_recurring` true, new value false):
`super().save()` writes the instance (same fields, `is_recurring` now
false, group id still set on the row), then
`_remove_future_recurring_holidays` runs with the instance's group id. -/
def holidaySaveToggleOff (today : Date) (db : HolidayDb) (h : HolidayRow) : HolidayDb :=
  let db' := db.map (fun r => if r.pk = h.pk then { h with is_recurring := false } else r)
  removeFutureRecurringHolidays today db' h.recurring_group_id

/-! ## Helper lemmas -/

/-- Counting over `range((end - start).days + 1)` with an offset equals the
cardinality of a filtered closed interval of serial days. -/
theorem countP_range_eq_card_Icc (a b : Nat) (p : Nat → Bool) :
    (List.range (b + 1 - a)).countP (fun x => p (a + x)) =
      ((Finset.Icc a b).filter (fun d => p d = true)).card := by
  have h1 : ((Finset.Icc a b).filter (fun d => p d = true)).card =
      ((List.range' a (b + 1 - a)).filter p).length := by
    rw [Nat.Icc_eq_range']
    unfold Finset.filter Finset.card
    simp [Multiset.filter_coe]
  rw [h1, List.range'_eq_map_range, List.filter_map, List.length_map,
    ← List.countP_eq_length_filter]
  rfl

/-! ## Concrete rows used in examples and counterexamples -/

/-- An active, company-wide (blank region) holiday on Monday 2026-01-26. -/
def republicDay2026 : HolidayRow :=
  HolidayRow.mk 1 (Date.mk 2026 1 26) "Republic Day" "" false none ("") false true false

/-- An active, company-wide (blank region) holiday on Tuesday 2026-01-27. -/
def blankRegionTueHoliday : HolidayRow :=
  HolidayRow.mk 2 (Date.mk 2026 1 27) "Foundation Day" "" false none ("") false true false

/-- An active holiday on Saturday 2026-01-24. -/
def saturdayHoliday2026 : HolidayRow :=
  HolidayRow.mk 3 (Date.mk 2026 1 24) "Sat Event" "" false none ("") false true false

/-! ## C5 -/

/-- C5 counterexample. The claim fails on the code in three concrete ways:
(1) `working_days(2026-01-24, 2026-01-28)` with the active Jan-26 holiday
returns count 2 (Tue 27 and Wed 28; Sat 24 and Sun 25 are weekend days and
Mon 26 is the holiday), not the claimed 4; (2) a company-wide (blank
region) holiday on Tuesday 2026-01-27 is NOT excluded when a non-blank
region is passed — `filter(region='Mumbai')` drops blank-region rows — so
the count is 1 where the claim requires 0; (3) an active holiday falling
on Saturday 2026-01-24 appears in the excluded list even though it removed
no counted day, so `excluded` does not list exactly the holidays removed
from the count. -/
theorem C5_counterexample :
    ((calculate_working_days [republicDay2026] (Date.mk 2026 1 24) (Date.mk 2026 1 28) none).1 = 2
      ∧ (calculate_working_days [republicDay2026] (Date.mk 2026 1 24) (Date.mk 2026 1 28) none).1 ≠ 4)
    ∧ (calculate_working_days [blankRegionTueHoliday] (Date.mk 2026 1 27) (Date.mk 2026 1 27)
        (some ("Mumbai"))).1 = 1
    ∧ (calculate_working_days [saturdayHoliday2026] (Date.mk 2026 1 24) (Date.mk 2026 1 24) none).1 = 0
    ∧ (calculate_working_days [saturdayHoliday2026] (Date.mk 2026 1 24) (Date.mk 2026 1 24) none).2
        = [ExcludedHoliday.mk (Date.mk 2026 1 24) "Sat Event" "All"] := by
  refine ⟨⟨by decide, by decide⟩, by decide, by decide, by decide⟩

/-- C5 (amended): `calculate_working_days(start, end, region)` returns
`(count, excluded)` where `count` is the number of serial days in the
closed interval `[start, end]` that are weekdays (Mon-Fri) and are not
dates of holidays in the active holiday queryset for the range, and
`excluded` lists exactly the queryset's holidays (whether or not they
removed a counted weekday). The queryset contains exactly the active
(`is_active` and not `is_deleted`) holidays dated within `[start, end]`;
when a non-blank region is passed only rows with exactly that region are
kept (a blank-region row does NOT apply then), and when no region (or a
blank one) is passed rows of every region apply. -/
theorem C5_theorem (db : HolidayDb) (s e : Date) (region : Option String) :
    ((calculate_working_days db s e region).1 =
      ((Finset.Icc s.serial e.serial).filter
        (fun d => isWeekdaySerial d = true ∧
          d ∉ (holidaysQuery db s e region).map (fun h => h.date.serial))).card)
    ∧ (∀ x, x ∈ (calculate_working_days db s e region).2 ↔
        ∃ h ∈ holidaysQuery db s e region,
          x = ExcludedHoliday.mk h.date h.name (if h.region = "" then ("All") else h.region))
    ∧ (regionTruthy region = false → ∀ h, h ∈ holidaysQuery db s e region ↔
        (h ∈ db ∧ s.serial ≤ h.date.serial ∧ h.date.serial ≤ e.serial
          ∧ h.is_active = true ∧ h.is_deleted = false))
    ∧ (∀ r, region = some r → r ≠ "" → ∀ h, h ∈ holidaysQuery db s e region ↔
        (h ∈ db ∧ s.serial ≤ h.date.serial ∧ h.date.serial ≤ e.serial
          ∧ h.is_active = true ∧ h.is_deleted = false ∧ h.region = r)) := by
  refine ⟨?_, ?_, ?_, ?_⟩
  · show (List.range (e.serial + 1 - s.serial)).countP _ = _
    rw [countP_range_eq_card_Icc s.serial e.serial (fun d =>
      isWeekdaySerial d && !((holidaysQuery db s e region).map (fun h => h.date.serial)).contains d)]
    congr 1
    apply Finset.filter_congr
    intro x _
    simp
  · intro x
    show x ∈ (holidaysQuery db s e region).map _ ↔ _
    simp [List.mem_map, eq_comm]
  · intro hreg h
    cases region with
    | none => simp [holidaysQuery, List.mem_filter, and_assoc]
    | some r =>
      have hr : r = "" := by
        by_contra hne
        simp [regionTruthy, hne] at hreg
      subst hr
      simp [holidaysQuery, List.mem_filter, and_assoc]
  · intro r hreq hne h
    subst hreq
    simp only [holidaysQuery, hne, if_true, ne_eq, not_false_iff]
    simp [List.mem_filter, and_assoc, hne]
    intro _
    constructor
    · rintro ⟨hrg, h1, h2, h3, h4⟩
      exact ⟨h1, h2, h3, h4, hrg⟩
    · rintro ⟨h1, h2, h3, h4, hrg⟩
      exact ⟨hrg, h1, h2, h3, h4⟩

/-! ## C6 -/

/-- C6 (confirmed): creation's overlap check raises a validation error if
and only if the employee has another PENDING or APPROVED request whose
closed date interval genuinely intersects the new request's interval
(equivalently, `existing.start_date <= new.end_date` and
`existing.end_date >= new.start_date`). -/
theorem C6_theorem (existing : List ExistingRequest) (s e : Nat) (hse : s ≤ e)
    (hwf : ∀ r ∈ existing, r.start_serial ≤ r.end_serial) :
    (overlapConflict existing s e = true ↔
      ∃ r ∈ existing, (r.status = Status.PENDING ∨ r.status = Status.APPROVED) ∧
        ∃ d, r.start_serial ≤ d ∧ d ≤ r.end_serial ∧ s ≤ d ∧ d ≤ e)
    ∧ (overlapConflict existing s e = true ↔
      ∃ r ∈ existing, (r.status = Status.PENDING ∨ r.status = Status.APPROVED) ∧
        r.start_serial ≤ e ∧ s ≤ r.end_serial) := by
  have hbase : overlapConflict existing s e = true ↔
      ∃ r ∈ existing, (r.status = Status.PENDING ∨ r.status = Status.APPROVED) ∧
        r.start_serial ≤ e ∧ s ≤ r.end_serial := by
    simp only [overlapConflict, List.any_eq_true, List.mem_filter, Bool.and_eq_true,
      decide_eq_true_eq, ge_iff_le]
    constructor
    · rintro ⟨r, ⟨hmem, hstat⟩, h1, h2⟩
      exact ⟨r, hmem, hstat, h1, h2⟩
    · rintro ⟨r, hmem, hstat, h1, h2⟩
      exact ⟨r, ⟨hmem, hstat⟩, h1, h2⟩
  refine ⟨hbase.trans ?_, hbase⟩
  constructor
  · rintro ⟨r, hmem, hstat, h1, h2⟩
    have hw := hwf r hmem
    exact ⟨r, hmem, hstat, max s r.start_serial, by omega, by omega, by omega, by omega⟩
  · rintro ⟨r, hmem, hstat, d, hd1, hd2, hd3, hd4⟩
    exact ⟨r, hmem, hstat, by omega, by omega⟩

/-- C6 witness: with an APPROVED request for 2026-03-10..2026-03-12, a new
request for 2026-03-11..2026-03-15 conflicts (the theorem applied at the
intersection day 2026-03-11) while 2026-03-13..2026-03-15 passes. -/
theorem C6_witness :
    overlapConflict
      [ExistingRequest.mk (Date.mk 2026 3 10).serial (Date.mk 2026 3 12).serial Status.APPROVED]
      (Date.mk 2026 3 11).serial (Date.mk 2026 3 15).serial = true
    ∧ overlapConflict
      [ExistingRequest.mk (Date.mk 2026 3 10).serial (Date.mk 2026 3 12).serial Status.APPROVED]
      (Date.mk 2026 3 13).serial (Date.mk 2026 3 15).serial = false :=
  ⟨((C6_theorem _ _ _ (by decide) (by decide)).1).mpr
      ⟨ExistingRequest.mk (Date.mk 2026 3 10).serial (Date.mk 2026 3 12).serial Status.APPROVED,
        by decide, Or.inr (by decide),
        (Date.mk 2026 3 11).serial, by decide, by decide, by decide, by decide⟩,
    by decide⟩

/-! ## C9 -/

/-- C9 (confirmed): the balance check of leave-request creation raises the
insufficient-balance error — which reports the remaining balance and the
leave type — if and only if the requested duration (0.5 for a half-day,
else the working-day count of the range against the full holiday calendar)
exceeds `total_allocated - used_leaves`; otherwise it passes. -/
theorem C9_theorem (b : BalanceRow) (lt : String) (db : HolidayDb) (half : Bool) (s e : Date) :
    (balanceCheck (some b) lt (daysRequested db half s e)
        = BalanceCheckResult.insufficientBalance b.remaining_leaves lt
      ↔ b.remaining_leaves < daysRequested db half s e)
    ∧ (balanceCheck (some b) lt (daysRequested db half s e) = BalanceCheckResult.ok
      ↔ ¬ b.remaining_leaves < daysRequested db half s e)
    ∧ daysRequested db true s e = 1 / 2
    ∧ (half = false →
        daysRequested db half s e = ((calculate_working_days db s e none).1 : ℚ)) := by
  refine ⟨?_, ?_, rfl, ?_⟩
  · unfold balanceCheck
    by_cases h : b.remaining_leaves < daysRequested db half s e
    · simp [h]
    · simp [h]
  · unfold balanceCheck
    by_cases h : b.remaining_leaves < daysRequested db half s e
    · simp [h]
    · simp [h]
  · intro hh
    subst hh
    rfl

/-- The CASUAL balance row of the C9 example: 12 allocated, 10.5 used,
remaining 1.5. -/
def casualBalanceC9 : BalanceRow := BalanceRow.mk 1 "CASUAL" 12 (21 / 2)

/-- C9 witness: with CASUAL remaining 1.5, a half-day (0.5) request passes
the balance check and a request for the two working days Mon 2026-01-12 to
Tue 2026-01-13 (no holidays) fails it with the error reporting the
remaining 1.5. -/
theorem C9_witness :
    casualBalanceC9.remaining_leaves = 3 / 2
    ∧ balanceCheck (some casualBalanceC9) "CASUAL"
        (daysRequested [] true (Date.mk 2026 1 12) (Date.mk 2026 1 12)) = BalanceCheckResult.ok
    ∧ daysRequested [] false (Date.mk 2026 1 12) (Date.mk 2026 1 13) = 2
    ∧ balanceCheck (some casualBalanceC9) "CASUAL"
        (daysRequested [] false (Date.mk 2026 1 12) (Date.mk 2026 1 13))
      = BalanceCheckResult.insufficientBalance casualBalanceC9.remaining_leaves ("CASUAL") := by
  have hrem : casualBalanceC9.remaining_leaves = 3 / 2 := by
    norm_num [casualBalanceC9, BalanceRow.remaining_leaves]
  have hcnt : (calculate_working_days [] (Date.mk 2026 1 12) (Date.mk 2026 1 13) none).1 = 2 := by
    decide
  have hdays : daysRequested [] false (Date.mk 2026 1 12) (Date.mk 2026 1 13) = 2 := by
    rw [(C9_theorem casualBalanceC9 ("CASUAL") [] false (Date.mk 2026 1 12)
      (Date.mk 2026 1 13)).2.2.2 rfl, hcnt]
    norm_num
  have hhalf : daysRequested [] true (Date.mk 2026 1 12) (Date.mk 2026 1 12) = 1 / 2 :=
    (C9_theorem casualBalanceC9 ("CASUAL") [] true (Date.mk 2026 1 12) (Date.mk 2026 1 12)).2.2.1
  refine ⟨hrem, ?_, hdays, ?_⟩
  · exact ((C9_theorem casualBalanceC9 ("CASUAL") [] true (Date.mk 2026 1 12)
      (Date.mk 2026 1 12)).2.1).mpr (by rw [hrem, hhalf]; norm_num)
  · exact ((C9_theorem casualBalanceC9 ("CASUAL") [] false (Date.mk 2026 1 12)
      (Date.mk 2026 1 13)).1).mpr (by rw [hrem, hdays]; norm_num)

/-! ## C3 -/

/-- C3 (confirmed): `sanitize_changes` replaces the value of every
sensitive field (password and the authorization-related fields) with the
mask — the mask string itself in the flat shape, a masked old/new pair in
the diff shape — and leaves every non-sensitive entry unchanged. -/
theorem C3_theorem (changes : List (String × ChangeVal)) :
    ((∀ kv ∈ changes, kv.2.isDict = false) →
      sanitize_changes changes = changes.map (fun kv =>
        if SENSITIVE_FIELDS.contains kv.1 then (kv.1, ChangeVal.flat MASK) else kv))
    ∧ ((∀ kv ∈ changes, kv.2.isDict = true) →
      sanitize_changes changes = changes.map (fun kv =>
        if SENSITIVE_FIELDS.contains kv.1 then (kv.1, ChangeVal.diff (some MASK) (some MASK)) else kv))
    ∧ (∀ kv ∈ changes, SENSITIVE_FIELDS.contains kv.1 = false →
        kv ∈ sanitize_changes changes) := by
  by_cases hempty : changes = []
  · subst hempty
    refine ⟨fun _ => rfl, fun _ => rfl, ?_⟩
    intro kv hkv
    simp at hkv
  · refine ⟨?_, ?_, ?_⟩
    · intro hflat
      have hany : changes.any (fun kv => kv.2.isDict) = false := by
        rw [List.any_eq_false]
        intro kv hkv
        simp [hflat kv hkv]
      unfold sanitize_changes
      simp [hempty, hany]
    · intro hdict
      have hany : changes.any (fun kv => kv.2.isDict) = true := by
        rw [List.any_eq_true]
        obtain ⟨kv, hkv⟩ := List.exists_mem_of_ne_nil changes hempty
        exact ⟨kv, hkv, hdict kv hkv⟩
      unfold sanitize_changes
      simp [hempty, hany]
    · intro kv hkv hcontains
      unfold sanitize_changes
      simp only [hempty, if_false]
      by_cases hany : changes.any (fun kv => kv.2.isDict)
      · simp only [hany, Bool.not_true, Bool.false_eq_true, if_false]
        exact List.mem_map.mpr ⟨kv, hkv, by rw [hcontains]; simp⟩
      · simp only [Bool.not_eq_true] at hany
        simp only [hany, Bool.not_false, if_true]
        exact List.mem_map.mpr ⟨kv, hkv, by rw [hcontains]; simp⟩

/-- C3 witness: the spec's two sanitization examples, obtained from the
theorem — `password` is masked in both shapes, `designation` is kept. -/
theorem C3_witness :
    sanitize_changes [("password", ChangeVal.flat ("secret123")), ("designation", ChangeVal.flat ("Eng"))]
      = [("password", ChangeVal.flat MASK), ("designation", ChangeVal.flat ("Eng"))]
    ∧ sanitize_changes [("password", ChangeVal.diff (some ("a")) (some ("b")))]
      = [("password", ChangeVal.diff (some MASK) (some MASK))] :=
  ⟨((C3_theorem _).1 (by decide)).trans (by decide),
    ((C3_theorem _).2.1 (by decide)).trans (by decide)⟩

/-- C5 witness: the amended theorem applied at concrete inputs — with no
region argument the Jan-26 holiday is in the queryset for 2026-01-24..28,
with region 'Mumbai' the blank-region Tuesday holiday is not; plus the
single-day evaluations (Monday 2026-01-12 gives (1, []), Saturday
2026-01-10 and Sunday 2026-01-11 give (0, [])). -/
theorem C5_witness :
    (republicDay2026 ∈ holidaysQuery [republicDay2026] (Date.mk 2026 1 24) (Date.mk 2026 1 28) none
      ↔ (republicDay2026 ∈ [republicDay2026]
          ∧ (Date.mk 2026 1 24).serial ≤ republicDay2026.date.serial
          ∧ republicDay2026.date.serial ≤ (Date.mk 2026 1 28).serial
          ∧ republicDay2026.is_active = true ∧ republicDay2026.is_deleted = false))
    ∧ (blankRegionTueHoliday ∈ holidaysQuery [blankRegionTueHoliday]
          (Date.mk 2026 1 27) (Date.mk 2026 1 27) (some ("Mumbai"))
      ↔ (blankRegionTueHoliday ∈ [blankRegionTueHoliday]
          ∧ (Date.mk 2026 1 27).serial ≤ blankRegionTueHoliday.date.serial
          ∧ blankRegionTueHoliday.date.serial ≤ (Date.mk 2026 1 27).serial
          ∧ blankRegionTueHoliday.is_active = true ∧ blankRegionTueHoliday.is_deleted = false
          ∧ blankRegionTueHoliday.region = "Mumbai"))
    ∧ calculate_working_days [] (Date.mk 2026 1 12) (Date.mk 2026 1 12) none = (1, [])
    ∧ calculate_working_days [] (Date.mk 2026 1 10) (Date.mk 2026 1 10) none = (0, [])
    ∧ calculate_working_days [] (Date.mk 2026 1 11) (Date.mk 2026 1 11) none = (0, []) :=
  ⟨(C5_theorem [republicDay2026] (Date.mk 2026 1 24) (Date.mk 2026 1 28) none).2.2.1
      rfl republicDay2026,
    (C5_theorem [blankRegionTueHoliday] (Date.mk 2026 1 27) (Date.mk 2026 1 27)
      (some ("Mumbai"))).2.2.2 ("Mumbai") rfl (by decide) blankRegionTueHoliday,
    by decide, by decide, by decide⟩

/-! ## C4 -/

/-- C4 (confirmed): creating an employee materializes exactly one
`LeaveBalance` row per leave type — SICK, CASUAL, EARNED, UNPAID — seeded
with `used_leaves = 0` and the type defaults 10/12/15/0; later saves of
the employee (`created = False`) add nothing, so the (employee,
leave_type) pair stays unique. -/
theorem C4_theorem (db : List BalanceRow) (emp : Nat)
    (hfresh : ∀ row ∈ db, row.employee ≠ emp) (laterSaves : List Bool)
    (hnotcreated : ∀ c ∈ laterSaves, c = false) :
    laterSaves.foldl (fun d c => create_leave_balances d emp c)
        (create_leave_balances db emp true) = create_leave_balances db emp true
    ∧ (∀ t ∈ LEAVE_TYPE_CHOICES,
        ((create_leave_balances db emp true).filter
          (fun r => r.employee = emp ∧ r.leave_type = t)).length = 1)
    ∧ (∀ r ∈ create_leave_balances db emp true, r.employee = emp →
        r.leave_type ∈ LEAVE_TYPE_CHOICES ∧ r.used_leaves = 0
          ∧ r.total_allocated = balanceDefault r.leave_type)
    ∧ balanceDefault ("SICK") = 10 ∧ balanceDefault ("CASUAL") = 12
    ∧ balanceDefault ("EARNED") = 15 ∧ balanceDefault ("UNPAID") = 0 := by
  have hfold : ∀ (l : List Bool) (d : List BalanceRow), (∀ c ∈ l, c = false) →
      l.foldl (fun d c => create_leave_balances d emp c) d = d := by
    intro l
    induction l with
    | nil => intro d _; rfl
    | cons c rest ih =>
      intro d hl
      have hc : c = false := hl c (List.mem_cons_self c rest)
      subst hc
      rw [List.foldl_cons]
      exact ih (create_leave_balances d emp false) (fun x hx => hl x (List.mem_cons_of_mem _ hx))
  have hsplit : create_leave_balances db emp true =
      db ++ LEAVE_TYPE_CHOICES.map (fun code =>
        BalanceRow.mk emp code (balanceDefault code) 0) := rfl
  refine ⟨hfold laterSaves _ hnotcreated, ?_, ?_, rfl, rfl, rfl, rfl⟩
  · intro t ht
    rw [hsplit, List.filter_append, List.length_append]
    have hdb : db.filter (fun r => r.employee = emp ∧ r.leave_type = t) = [] := by
      rw [List.filter_eq_nil_iff]
      intro r hr
      simp only [decide_eq_true_eq, not_and]
      intro hemp
      exact absurd hemp (hfresh r hr)
    rw [hdb]
    fin_cases ht <;> simp [LEAVE_TYPE_CHOICES, List.filter]
  · intro r hr hemp
    rw [hsplit] at hr
    rcases List.mem_append.mp hr with hl | hl
    · exact absurd hemp (hfresh r hl)
    · rcases List.mem_map.mp hl with ⟨code, hcode, hEq⟩
      subst hEq
      fin_cases hcode <;> exact ⟨by simp [LEAVE_TYPE_CHOICES], rfl, rfl⟩

/-- C4 witness: starting from an empty table, one creation plus two
non-creating saves yield exactly the four seeded rows, one per type. -/
theorem C4_witness :
    [false, false].foldl (fun d c => create_leave_balances d 7 c)
        (create_leave_balances [] 7 true) = create_leave_balances [] 7 true
    ∧ ((create_leave_balances [] 7 true).filter
        (fun r => r.employee = 7 ∧ r.leave_type = "SICK")).length = 1 :=
  ⟨(C4_theorem [] 7 (by simp) [false, false] (by simp)).1,
    (C4_theorem [] 7 (by simp) [false, false] (by simp)).2.1 "SICK" (by decide)⟩

/-! ## C1 -/

/-- Per-save effect of the ledger signal: the save always stores the new
status, and the balance delta is +duration on entry into APPROVED,
-duration on exit from APPROVED, and 0 otherwise. -/
theorem leaveSave_delta (s : LRState) (f : ReqFields) :
    (leaveSave s f).status = f.status ∧
    (leaveSave s f).used = s.used +
      (if f.status = Status.APPROVED ∧ s.status ≠ Status.APPROVED then f.duration
       else if s.status = Status.APPROVED ∧ f.status ≠ Status.APPROVED then -f.duration
       else 0) := by
  by_cases h1 : s.status = f.status
  · have hc1 : ¬(f.status = Status.APPROVED ∧ ¬s.status = Status.APPROVED) := by
      rw [h1]; exact fun hh => hh.2 hh.1
    have hc2 : ¬(s.status = Status.APPROVED ∧ ¬f.status = Status.APPROVED) := by
      rw [h1]; exact fun hh => hh.2 hh.1
    simp [leaveSave, h1, hc1, hc2]
  · by_cases h2 : f.status = Status.APPROVED
    · have hs : ¬s.status = Status.APPROVED := fun hh => h1 (hh.trans h2.symm)
      simp [leaveSave, h1, h2, hs]
    · by_cases h3 : s.status = Status.APPROVED
      · have h2s : ¬Status.APPROVED = f.status := fun hh => h2 hh.symm
        simp [leaveSave, h1, h2, h3, h2s, sub_eq_add_neg]
      · simp [leaveSave, h1, h2, h3]

/-- Folding the save step over a list of saves of equal duration yields
the duration-weighted net count of entries into minus exits from
APPROVED. -/
theorem foldl_leaveSave_used (dur : ℚ) :
    ∀ (saves : List ReqFields) (s : LRState), (∀ f ∈ saves, f.duration = dur) →
      (saves.foldl leaveSave s).used =
        s.used + dur * ((netApprovedEntries s.status (saves.map ReqFields.status) : ℤ) : ℚ) := by
  intro saves
  induction saves with
  | nil => intro s _; simp [netApprovedEntries]
  | cons f rest ih =>
    intro s hdur
    rw [List.foldl_cons, List.map_cons]
    rw [ih (leaveSave s f) (fun g hg => hdur g (List.mem_cons_of_mem _ hg))]
    obtain ⟨hstat, hused⟩ := leaveSave_delta s f
    rw [hstat, hused, hdur f (List.mem_cons_self f rest), netApprovedEntries]
    by_cases c1 : f.status = Status.APPROVED ∧ s.status ≠ Status.APPROVED
    · rw [if_pos c1, if_pos c1]
      push_cast
      ring
    · rw [if_neg c1, if_neg c1]
      by_cases c2 : s.status = Status.APPROVED ∧ f.status ≠ Status.APPROVED
      · rw [if_pos c2, if_pos c2]
        push_cast
        ring
      · rw [if_neg c2, if_neg c2]
        push_cast
        ring

/-- C1 (confirmed): creation never touches the ledger; each subsequent
save adds the request's duration to used_leaves exactly when the status
becomes APPROVED from a non-APPROVED status, subtracts it exactly when the
status leaves APPROVED, and changes nothing otherwise; hence over any
sequence of saves the net ledger effect is the duration times the number
of entries into APPROVED minus exits from APPROVED. -/
theorem C1_theorem (init_used : ℚ) (f0 : ReqFields) (saves : List ReqFields) (dur : ℚ)
    (hdur : ∀ f ∈ saves, f.duration = dur) :
    ((leaveCreate f0 init_used).used = init_used)
    ∧ (∀ (s : LRState) (f : ReqFields),
        (leaveSave s f).status = f.status ∧
        (leaveSave s f).used = s.used +
          (if f.status = Status.APPROVED ∧ s.status ≠ Status.APPROVED then f.duration
           else if s.status = Status.APPROVED ∧ f.status ≠ Status.APPROVED then -f.duration
           else 0))
    ∧ (saves.foldl leaveSave (leaveCreate f0 init_used)).used
        = init_used + dur * ((netApprovedEntries f0.status (saves.map ReqFields.status) : ℤ) : ℚ) :=
  ⟨rfl, leaveSave_delta, foldl_leaveSave_used dur saves (leaveCreate f0 init_used) hdur⟩

/-- A one-weekday (Monday 2026-01-12) full-day request with the given
status: its duration is 1. -/
def reqC1 (st : Status) : ReqFields :=
  ReqFields.mk st false (Date.mk 2026 1 12).serial (Date.mk 2026 1 12).serial

/-- C1 witness: create PENDING, then save APPROVED, REJECTED, APPROVED
(duration 1 each): the ledger nets to a single deduction of 1. -/
theorem C1_witness :
    ([reqC1 Status.APPROVED, reqC1 Status.REJECTED, reqC1 Status.APPROVED].foldl leaveSave
      (leaveCreate (reqC1 Status.PENDING) 0)).used = 1 := by
  have hcount : (List.range 1).countP
      (fun x => isWeekdaySerial ((Date.mk 2026 1 12).serial + x)) = 1 := by decide
  have hdur : ∀ f ∈ [reqC1 Status.APPROVED, reqC1 Status.REJECTED, reqC1 Status.APPROVED],
      ReqFields.duration f = 1 := by
    intro f hf
    have hform : f.is_half_day = false ∧ f.start_serial = (Date.mk 2026 1 12).serial ∧
        f.end_serial = (Date.mk 2026 1 12).serial := by
      simp only [List.mem_cons, List.not_mem_nil, or_false] at hf
      rcases hf with h | h | h
      all_goals rw [h]; exact ⟨rfl, rfl, rfl⟩
    unfold ReqFields.duration
    rw [hform.1, hform.2.1, hform.2.2]
    simp [hcount]
  have h := (C1_theorem 0 (reqC1 Status.PENDING) [reqC1 Status.APPROVED, reqC1 Status.REJECTED,
    reqC1 Status.APPROVED] 1 hdur).2.2
  rw [h]
  have hnet : netApprovedEntries (reqC1 Status.PENDING).status
      ([reqC1 Status.APPROVED, reqC1 Status.REJECTED, reqC1 Status.APPROVED].map
        ReqFields.status) = 1 := by decide
  rw [hnet]
  norm_num

/-! ## C2 -/

/-- States `LeaveRequest.duration` in declarative form: 0.5 for a half-day,
otherwise the number of weekday serial days in the closed date range —
with no holiday exclusion. -/
theorem duration_eq_card (f : ReqFields) :
    f.duration = if f.is_half_day then (1 : ℚ) / 2
      else (((Finset.Icc f.start_serial f.end_serial).filter
        (fun d => isWeekdaySerial d = true)).card : ℚ) := by
  unfold ReqFields.duration
  by_cases h : f.is_half_day
  · simp [h]
  · simp only [h, Bool.false_eq_true, if_false]
    rw [countP_range_eq_card_Icc f.start_serial f.end_serial isWeekdaySerial]

/-- The full-day request 2026-01-26..2026-01-26 being approved. -/
def reqC2 : ReqFields :=
  ReqFields.mk Status.APPROVED false (Date.mk 2026 1 26).serial (Date.mk 2026 1 26).serial

/-- C2 counterexample: approving the one-day request for Monday 2026-01-26
while "Republic Day" is an active registered holiday on that date adjusts
the ledger by `LeaveRequest.duration = 1` (weekend-only exclusion), while
the section-4.1 calculator's duration for the same range is 0 (the single
day is a weekday but an active holiday) — the two amounts differ, so the
ledger adjustment does not apply holiday exclusion. -/
theorem C2_counterexample :
    (leaveSave (LRState.mk Status.PENDING 0) reqC2).used = 1
    ∧ daysRequested [republicDay2026] false (Date.mk 2026 1 26) (Date.mk 2026 1 26) = 0
    ∧ (1 : ℚ) ≠ 0 := by
  refine ⟨?_, ?_, by norm_num⟩
  · have h := (leaveSave_delta (LRState.mk Status.PENDING 0) reqC2).2
    rw [h, if_pos (⟨rfl, by decide⟩ :
      reqC2.status = Status.APPROVED ∧ (LRState.mk Status.PENDING 0).status ≠ Status.APPROVED)]
    have hcount : (List.range 1).countP
        (fun x => isWeekdaySerial ((Date.mk 2026 1 26).serial + x)) = 1 := by decide
    show (0 : ℚ) + reqC2.duration = 1
    unfold ReqFields.duration reqC2
    simp [hcount]
  · have hzero : (calculate_working_days [republicDay2026] (Date.mk 2026 1 26)
        (Date.mk 2026 1 26) none).1 = 0 := by decide
    unfold daysRequested
    rw [if_neg (by simp)]
    rw [hzero]
    norm_num

/-- C2 (amended): the ledger adjustment amount on approval (entry into
APPROVED) and revocation (exit from APPROVED) is `LeaveRequest.duration`:
0.5 when is_half_day, otherwise the count of weekdays (Mon-Fri) in
[start_date, end_date] — weekend exclusion only, with no holiday-calendar
exclusion. -/
theorem C2_theorem :
    (∀ (s : LRState) (f : ReqFields), f.status = Status.APPROVED →
      s.status ≠ Status.APPROVED →
      (leaveSave s f).used = s.used +
        (if f.is_half_day then (1 : ℚ) / 2
         else (((Finset.Icc f.start_serial f.end_serial).filter
           (fun d => isWeekdaySerial d = true)).card : ℚ)))
    ∧ (∀ (s : LRState) (f : ReqFields), s.status = Status.APPROVED →
      f.status ≠ Status.APPROVED →
      (leaveSave s f).used = s.used -
        (if f.is_half_day then (1 : ℚ) / 2
         else (((Finset.Icc f.start_serial f.end_serial).filter
           (fun d => isWeekdaySerial d = true)).card : ℚ))) := by
  constructor
  · intro s f hf hs
    rw [(leaveSave_delta s f).2, if_pos ⟨hf, hs⟩, duration_eq_card]
  · intro s f hs hf
    have hc1 : ¬(f.status = Status.APPROVED ∧ ¬s.status = Status.APPROVED) := by
      intro hh
      exact hf hh.1
    rw [(leaveSave_delta s f).2, if_neg hc1, if_pos ⟨hs, hf⟩, duration_eq_card,
      sub_eq_add_neg]

/-- C2 witness: the amended theorem applied to the approval of the
2026-01-26 one-day request from PENDING with balance 0. -/
theorem C2_witness :
    (leaveSave (LRState.mk Status.PENDING 0) reqC2).used
      = 0 + (((Finset.Icc reqC2.start_serial reqC2.end_serial).filter
          (fun d => isWeekdaySerial d = true)).card : ℚ) := by
  have h := C2_theorem.1 (LRState.mk Status.PENDING 0) reqC2 rfl (by decide)
  rw [h]
  rfl

/-! ## C7 / C10 helper lemmas -/

/-- February has 29 days in leap years and 28 otherwise. -/
theorem daysInMonth_two (y : Nat) :
    daysInMonth y 2 = if isLeapYear y then 29 else 28 := by
  simp [daysInMonth]

/-- Outside February the month length does not depend on the year. -/
theorem daysInMonth_ne_two (y y' m : Nat) (hm : m ≠ 2) :
    daysInMonth y m = daysInMonth y' m := by
  unfold daysInMonth
  rw [if_neg hm, if_neg hm]

/-- A leap year is never followed by another one: the next year is not
divisible by four. -/
theorem isLeapYear_succ_false (y : Nat) (hy : isLeapYear y = true) :
    isLeapYear (y + 1) = false := by
  unfold isLeapYear at hy ⊢
  rw [Bool.and_eq_true, beq_iff_eq] at hy
  have h4 : (y + 1) % 4 ≠ 0 := by omega
  have hbeq : ((y + 1) % 4 == 0) = false := by
    rw [beq_eq_false_iff_ne]
    exact h4
  rw [hbeq, Bool.false_and]

/-- A valid month/day pair other than February 29 is valid in every
(positive) year. -/
theorem future_valid (dte : Date) (hval : dte.valid)
    (hfeb : ¬(dte.month = 2 ∧ dte.day = 29)) (y' : Nat) (hy : 1 ≤ y') :
    (Date.mk y' dte.month dte.day).valid := by
  obtain ⟨h1, h2, h3, h4, h5⟩ := hval
  refine ⟨hy, h2, h3, h4, ?_⟩
  by_cases hm : dte.month = 2
  · have h5' : dte.day ≤ if isLeapYear dte.year then 29 else 28 := by
      rw [hm, daysInMonth_two] at h5
      exact h5
    have hdne : dte.day ≠ 29 := fun hh => hfeb ⟨hm, hh⟩
    have hd28 : dte.day ≤ 28 := by
      split at h5' <;> omega
    show dte.day ≤ daysInMonth y' dte.month
    rw [hm, daysInMonth_two]
    split <;> omega
  · show dte.day ≤ daysInMonth y' dte.month
    rw [daysInMonth_ne_two y' dte.year dte.month hm]
    exact h5

/-- February 29 of a valid (hence leap) year is invalid in the following
year, so `date.replace` fails there. -/
theorem feb29_next_year_invalid (dte : Date) (hval : dte.valid)
    (hm : dte.month = 2) (hd : dte.day = 29) :
    ¬(Date.mk (dte.year + 1) dte.month dte.day).valid := by
  obtain ⟨h1, h2, h3, h4, h5⟩ := hval
  have hleap : isLeapYear dte.year = true := by
    rw [hm, daysInMonth_two] at h5
    by_contra hnl
    rw [Bool.not_eq_true] at hnl
    rw [hnl] at h5
    simp at h5
    omega
  intro hval'
  obtain ⟨g1, g2, g3, g4, g5⟩ := hval'
  have hnl := isLeapYear_succ_false dte.year hleap
  simp only at g5
  rw [hm, daysInMonth_two, hnl] at g5
  simp at g5
  omega

/-- Closed form of the generation loop when every target year-replacement
is valid: it returns the future-year rows whose (date, region) pair is not
yet present, in year order, each carrying the source holiday's name,
description, region, working-day and active flags and the group id. -/
theorem collectFutureHolidays_ok (db : HolidayDb) (h : HolidayRow) (gid : Nat)
    (L : List Nat)
    (hval : ∀ k ∈ L, (Date.mk (h.date.year + k) h.date.month h.date.day).valid) :
    collectFutureHolidays db h gid L = Except.ok (L.filterMap (fun k =>
      if existsDateRegion db (Date.mk (h.date.year + k) h.date.month h.date.day) h.region
      then none
      else some (HolidayRow.mk 0 (Date.mk (h.date.year + k) h.date.month h.date.day)
        h.name h.description true (some gid) h.region h.is_working_day h.is_active false))) := by
  induction L with
  | nil => rfl
  | cons k rest ih =>
    have hv := hval k (List.mem_cons_self k rest)
    unfold collectFutureHolidays
    rw [List.filterMap_cons]
    simp only [Date.replaceYear, if_pos hv]
    rw [ih (fun j hj => hval j (List.mem_cons_of_mem _ hj))]
    by_cases he : existsDateRegion db (Date.mk (h.date.year + k) h.date.month h.date.day) h.region
    · simp [he]
    · simp [he]

/-- Lemma: `bulk_create` succeeds when no row to insert collides on
(date, region) with the database at insert time. -/
theorem holidayBulkCreate_ok (db : HolidayDb) (rows : List HolidayRow)
    (hnone : ∀ r ∈ rows, existsDateRegion db r.date r.region = false) :
    holidayBulkCreate db rows = Except.ok (db ++ rows) := by
  unfold holidayBulkCreate
  rw [if_neg]
  rw [Bool.not_eq_true, List.any_eq_false]
  intro r hr
  rw [hnone r hr]
  simp

/-- Sequential closed form of `Holiday.save` for a new recurring holiday
whose date is not February 29: no exception escapes, the base row is
persisted first with the fresh group id, and exactly the missing
future-year rows (next five years, skipping (date, region) pairs already
present) are bulk-created after it. -/
theorem holidaySaveCreate_eq (db : HolidayDb) (h : HolidayRow) (gid pk : Nat)
    (hval : h.date.valid) (hfeb : ¬(h.date.month = 2 ∧ h.date.day = 29)) :
    holidaySaveCreate db h gid pk =
      (db ++ [{ h with pk := pk, recurring_group_id := some gid, is_recurring := true }] ++
        ([1, 2, 3, 4, 5].filterMap (fun k =>
          if existsDateRegion
              (db ++ [{ h with pk := pk, recurring_group_id := some gid, is_recurring := true }])
              (Date.mk (h.date.year + k) h.date.month h.date.day) h.region
          then none
          else some (HolidayRow.mk 0 (Date.mk (h.date.year + k) h.date.month h.date.day)
            h.name h.description true (some gid) h.region h.is_working_day h.is_active false))),
        false) := by
  unfold holidaySaveCreate holidaySaveCreateTwoPhase
  dsimp only
  set base : HolidayRow :=
    { h with pk := pk, recurring_group_id := some gid, is_recurring := true } with hbase
  have hb : ∀ k ∈ ([1, 2, 3, 4, 5] : List Nat),
      (Date.mk (base.date.year + k) base.date.month base.date.day).valid := by
    intro k hk
    have hbd : base.date = h.date := by rw [hbase]
    have hy := hval.1
    rw [hbd]
    exact future_valid h.date hval hfeb (h.date.year + k) (by omega)
  rw [collectFutureHolidays_ok (db ++ [base]) base gid [1, 2, 3, 4, 5] hb]
  have hbdate : base.date = h.date := by rw [hbase]
  have hbname : base.name = h.name := by rw [hbase]
  have hbdesc : base.description = h.description := by rw [hbase]
  have hbregion : base.region = h.region := by rw [hbase]
  have hbwork : base.is_working_day = h.is_working_day := by rw [hbase]
  have hbactive : base.is_active = h.is_active := by rw [hbase]
  set rows := ([1, 2, 3, 4, 5].filterMap (fun k =>
    if existsDateRegion (db ++ [base])
        (Date.mk (h.date.year + k) h.date.month h.date.day) h.region
    then none
    else some (HolidayRow.mk 0 (Date.mk (h.date.year + k) h.date.month h.date.day)
      h.name h.description true (some gid) h.region h.is_working_day h.is_active false)))
    with hrows
  dsimp only
  have hnone : ∀ r ∈ rows, existsDateRegion (db ++ [base]) r.date r.region = false := by
    intro r hr
    rw [hrows] at hr
    rcases List.mem_filterMap.mp hr with ⟨k, _, hk⟩
    by_cases he : existsDateRegion (db ++ [base])
        (Date.mk (h.date.year + k) h.date.month h.date.day) h.region
    · rw [if_pos he] at hk
      cases hk
    · rw [if_neg he] at hk
      cases hk
      simpa using he
  by_cases hempty : rows = []
  · rw [if_pos hempty, hempty]
    simp
  · rw [if_neg hempty, holidayBulkCreate_ok _ _ hnone]

/-- Counting matches in a filterMap whose function either skips or emits a
transformed element. -/
theorem countP_filterMap_if {α β : Type} (L : List α) (p : β → Bool) (g : α → Bool)
    (row : α → β) :
    ((L.filterMap (fun a => if g a then none else some (row a))).countP p)
      = L.countP (fun a => !g a && p (row a)) := by
  induction L with
  | nil => rfl
  | cons a rest ih =>
    rw [List.filterMap_cons]
    by_cases hg : g a = true
    · rw [if_pos hg]
      dsimp only
      rw [ih, List.countP_cons]
      simp [hg]
    · rw [if_neg hg]
      dsimp only
      rw [List.countP_cons, ih, List.countP_cons]
      simp [hg]

/-- Among the five generated future-year rows, exactly one is dated in
year `y + k` (none if that year was skipped): year offsets are injective
on dates. -/
theorem rowsFor_countP (y m d : Nat) (region name desc : String) (gid : Nat)
    (wd act : Bool) (g : Nat → Bool) (k : Nat) (hk1 : 1 ≤ k) (hk5 : k ≤ 5) :
    (([1, 2, 3, 4, 5].filterMap (fun j =>
      if g j then none
      else some (HolidayRow.mk 0 (Date.mk (y + j) m d) name desc true (some gid)
        region wd act false))).countP
      (fun r => r.date = Date.mk (y + k) m d ∧ r.region = region))
    = if g k then 0 else 1 := by
  rw [countP_filterMap_if]
  have hval : ∀ j : Nat,
      (decide (Date.mk (y + j) m d = Date.mk (y + k) m d ∧ region = region))
        = decide (j = k) := by
    intro j
    by_cases hj : j = k
    · subst hj
      simp
    · have hne : ¬(Date.mk (y + j) m d = Date.mk (y + k) m d) := by
        rw [Date.mk.injEq]
        intro hh
        exact hj (by omega)
      simp [hne, hj]
  simp only [List.countP_cons, List.countP_nil, hval]
  by_cases hg : g k = true
  · rw [if_pos hg]
    interval_cases k <;> simp [hg]
  · rw [if_neg hg]
    rw [Bool.not_eq_true] at hg
    interval_cases k <;> simp [hg]

/-! ## C7 -/

/-- A new recurring Republic-Day holiday (2026-01-26, company-wide). -/
def holidayC7 : HolidayRow :=
  HolidayRow.mk 0 (Date.mk 2026 1 26) "Republic Day" "" true none ("") false true false

/-- A row for 2027-01-26 (same blank region) inserted by a concurrent
writer between the generation loop's existence checks and its
`bulk_create`. -/
def concurrentRow2027 : HolidayRow :=
  HolidayRow.mk 50 (Date.mk 2027 1 26) "Republic Day" "" false none ("") false true false

/-- C7 counterexample: when a (date, region) duplicate arises concurrently
— the existence checks saw a database without the 2027 row, but by
`bulk_create` time a concurrent writer has inserted it — the
unique-constraint violation is NOT treated as "already exists, skip": the
uncaught `IntegrityError` escapes (flag true), unlike the sequential run
of the very same save, which succeeds. -/
theorem C7_counterexample :
    (holidaySaveCreateTwoPhase [] [concurrentRow2027] holidayC7 99 1).2 = true
    ∧ (holidaySaveCreate [] holidayC7 99 1).2 = false := by
  constructor
  · decide
  · decide

/-- C7 (amended): sequentially, creating a new recurring holiday persists
the base row with the fresh group id and bulk-creates one additional row —
same name, description, region, is_working_day, is_active, group id — for
each of the next 5 years whose (date, region) pair is not already present,
skipping years already present; no error escapes. A duplicate arising
concurrently between the existence checks and the bulk insert, however,
raises an uncaught unique-constraint violation (see the counterexample)
rather than being skipped. -/
theorem C7_theorem (db : HolidayDb) (h : HolidayRow) (gid pk : Nat)
    (hval : h.date.valid) (hfeb : ¬(h.date.month = 2 ∧ h.date.day = 29)) :
    ((holidaySaveCreate db h gid pk).2 = false)
    ∧ ((holidaySaveCreate db h gid pk).1 =
        db ++ [{ h with pk := pk, recurring_group_id := some gid, is_recurring := true }] ++
          ([1, 2, 3, 4, 5].filterMap (fun k =>
            if existsDateRegion
                (db ++ [{ h with pk := pk, recurring_group_id := some gid, is_recurring := true }])
                (Date.mk (h.date.year + k) h.date.month h.date.day) h.region
            then none
            else some (HolidayRow.mk 0 (Date.mk (h.date.year + k) h.date.month h.date.day)
              h.name h.description true (some gid) h.region h.is_working_day h.is_active false))))
    ∧ (∀ k, 1 ≤ k → k ≤ 5 →
        (existsDateRegion
            (db ++ [{ h with pk := pk, recurring_group_id := some gid, is_recurring := true }])
            (Date.mk (h.date.year + k) h.date.month h.date.day) h.region = false →
          ((holidaySaveCreate db h gid pk).1.countP (fun r =>
            r.date = Date.mk (h.date.year + k) h.date.month h.date.day ∧ r.region = h.region))
            = (db.countP (fun r =>
                r.date = Date.mk (h.date.year + k) h.date.month h.date.day
                  ∧ r.region = h.region)) + 1
          ∧ (HolidayRow.mk 0 (Date.mk (h.date.year + k) h.date.month h.date.day)
              h.name h.description true (some gid) h.region h.is_working_day h.is_active false)
              ∈ (holidaySaveCreate db h gid pk).1)
        ∧ (existsDateRegion
            (db ++ [{ h with pk := pk, recurring_group_id := some gid, is_recurring := true }])
            (Date.mk (h.date.year + k) h.date.month h.date.day) h.region = true →
          ((holidaySaveCreate db h gid pk).1.countP (fun r =>
            r.date = Date.mk (h.date.year + k) h.date.month h.date.day ∧ r.region = h.region))
            = db.countP (fun r =>
                r.date = Date.mk (h.date.year + k) h.date.month h.date.day
                  ∧ r.region = h.region))) := by
  have heq := holidaySaveCreate_eq db h gid pk hval hfeb
  have hflag : (holidaySaveCreate db h gid pk).2 = false := by rw [heq]
  have hdb : (holidaySaveCreate db h gid pk).1 =
      db ++ [{ h with pk := pk, recurring_group_id := some gid, is_recurring := true }] ++
        ([1, 2, 3, 4, 5].filterMap (fun k =>
          if existsDateRegion
              (db ++ [{ h with pk := pk, recurring_group_id := some gid, is_recurring := true }])
              (Date.mk (h.date.year + k) h.date.month h.date.day) h.region
          then none
          else some (HolidayRow.mk 0 (Date.mk (h.date.year + k) h.date.month h.date.day)
            h.name h.description true (some gid) h.region h.is_working_day h.is_active false))) := by
    rw [heq]
  refine ⟨hflag, hdb, ?_⟩
  intro k hk1 hk5
  have hy := hval.1
  have hdatene : h.date ≠ Date.mk (h.date.year + k) h.date.month h.date.day := by
    intro hdate
    have hyear : h.date.year = h.date.year + k := congrArg Date.year hdate
    omega
  have hcountbase : (([{ h with pk := pk, recurring_group_id := some gid, is_recurring := true }] : HolidayDb).countP (fun r =>
        r.date = Date.mk (h.date.year + k) h.date.month h.date.day ∧ r.region = h.region)) = 0 := by
    rw [List.countP_cons, List.countP_nil]
    simp [hdatene]
  have hrows := rowsFor_countP h.date.year h.date.month h.date.day h.region h.name
    h.description gid h.is_working_day h.is_active
    (fun j => existsDateRegion
      (db ++ [{ h with pk := pk, recurring_group_id := some gid, is_recurring := true }])
      (Date.mk (h.date.year + j) h.date.month h.date.day) h.region) k hk1 hk5
  beta_reduce at hrows
  constructor
  · intro hmiss
    constructor
    · rw [hdb, List.countP_append, List.countP_append, hcountbase, hrows, hmiss]
      simp
    · rw [hdb]
      refine List.mem_append.mpr (Or.inr ?_)
      refine List.mem_filterMap.mpr ⟨k, ?_, ?_⟩
      · interval_cases k <;> simp
      · rw [hmiss]
        simp
  · intro hhit
    rw [hdb, List.countP_append, List.countP_append, hcountbase, hrows, hhit]
    simp

/-- A pre-existing (non-recurring) Republic-Day row for 2029-01-26. -/
def existing2029 : HolidayRow :=
  HolidayRow.mk 9 (Date.mk 2029 1 26) "Republic Day" "" false none ("") false true false

/-- C7 witness: creating the recurring 2026-01-26 holiday with a 2029 row
already present succeeds, generates the 2027 occurrence with the same
attributes and group id, and leaves exactly one row dated 2029-01-26 (the
year is skipped). -/
theorem C7_witness :
    (holidaySaveCreate [existing2029] holidayC7 40 2).2 = false
    ∧ (HolidayRow.mk 0 (Date.mk 2027 1 26) "Republic Day" "" true (some 40) "" false true false)
        ∈ (holidaySaveCreate [existing2029] holidayC7 40 2).1
    ∧ ((holidaySaveCreate [existing2029] holidayC7 40 2).1.countP (fun r =>
        r.date = Date.mk 2029 1 26 ∧ r.region = "")) = 1 := by
  refine ⟨(C7_theorem [existing2029] holidayC7 40 2 (by decide) (by decide)).1, ?_, ?_⟩
  · exact ((C7_theorem [existing2029] holidayC7 40 2 (by decide) (by decide)).2.2 1
      (by norm_num) (by norm_num)).1 (by decide) |>.2
  · have hc := ((C7_theorem [existing2029] holidayC7 40 2 (by decide) (by decide)).2.2 3
      (by norm_num) (by norm_num)).2 (by decide)
    exact hc.trans (by decide)

/-! ## C10 -/

/-- The generation loop raises (uncaught) as soon as a year replacement is
invalid; nothing of the loop's output survives. -/
theorem collectFutureHolidays_error_head (db : HolidayDb) (hrow : HolidayRow)
    (gid k : Nat) (rest : List Nat)
    (hbad : hrow.date.replaceYear (hrow.date.year + k) = none) :
    collectFutureHolidays db hrow gid (k :: rest) = Except.error () := by
  unfold collectFutureHolidays
  rw [hbad]

/-- C10 (confirmed): for a new recurring holiday not dated February 29 the
five future occurrences are generated without error; for one dated
February 29 (necessarily of a leap year) `date.replace` raises on the
first following year after the base row has already been persisted, so the
create is partially applied: the Feb-29 row exists with its group id and
none of its future occurrences exist. -/
theorem C10_theorem (db : HolidayDb) (h : HolidayRow) (gid pk : Nat) (hval : h.date.valid) :
    (¬(h.date.month = 2 ∧ h.date.day = 29) → (holidaySaveCreate db h gid pk).2 = false)
    ∧ (h.date.month = 2 → h.date.day = 29 →
        holidaySaveCreate db h gid pk =
          (db ++ [{ h with pk := pk, recurring_group_id := some gid, is_recurring := true }],
            true)) := by
  constructor
  · intro hfeb
    rw [holidaySaveCreate_eq db h gid pk hval hfeb]
  · intro hm hd
    have hinv := feb29_next_year_invalid h.date hval hm hd
    have hbad : h.date.replaceYear (h.date.year + 1) = none := by
      unfold Date.replaceYear
      rw [if_neg hinv]
    have hbad' : (({ h with pk := pk, recurring_group_id := some gid, is_recurring := true } : HolidayRow)).date.replaceYear ((({ h with pk := pk, recurring_group_id := some gid, is_recurring := true } : HolidayRow)).date.year + 1) = none := hbad
    unfold holidaySaveCreate holidaySaveCreateTwoPhase
    dsimp only
    rw [collectFutureHolidays_error_head _ _ gid 1 [2, 3, 4, 5] hbad']

/-- A new recurring holiday dated February 29 of the leap year 2028. -/
def holidayFeb29 : HolidayRow :=
  HolidayRow.mk 0 (Date.mk 2028 2 29) "Leap Day" "" true none ("") false true false

/-- C10 witness: saving the recurring 2028-02-29 holiday persists exactly
the base row (with its group id) and raises; the non-Feb-29 recurring
2026-01-26 holiday generates without error. -/
theorem C10_witness :
    holidaySaveCreate [] holidayFeb29 7 3 =
      ([{ holidayFeb29 with pk := 3, recurring_group_id := some 7, is_recurring := true }], true)
    ∧ (holidaySaveCreate [] holidayC7 7 3).2 = false := by
  constructor
  · have hh := (C10_theorem [] holidayFeb29 7 3 (by decide)).2 rfl rfl
    simpa using hh
  · exact (C10_theorem [] holidayC7 7 3 (by decide)).1 (by decide)

/-! ## C8 -/

/-- Unfolding of the toggle-off save path when the instance carries a
group id: update the row in place (recurrence off), delete the group's
future-dated rows, clear recurrence metadata on the remaining group
rows. -/
theorem toggleOff_eq (today : Date) (db : HolidayDb) (h : HolidayRow) (g : Nat)
    (hg : h.recurring_group_id = some g) :
    holidaySaveToggleOff today db h =
      ((db.map (fun r => if r.pk = h.pk then { h with is_recurring := false } else r)).filter
        (fun r => !(r.recurring_group_id = some g && today.serial < r.date.serial))).map
        (fun r => if r.recurring_group_id = some g then
          { r with is_recurring := false, recurring_group_id := none } else r) := by
  unfold holidaySaveToggleOff
  rw [hg]
  rfl

/-- C8 (confirmed): toggling `is_recurring` off on a group member removes
exactly the group's rows dated strictly after today (the toggled row
included); every row dated today or earlier survives with only
`is_recurring` cleared to false and `recurring_group_id` cleared to none —
date, name, description, region and the deletion/active flags unchanged;
rows outside the group are untouched, and no rows appear from nowhere. -/
theorem C8_theorem (today : Date) (db : HolidayDb) (h : HolidayRow) (g : Nat)
    (hg : h.recurring_group_id = some g)
    (hnodup : (db.map HolidayRow.pk).Nodup) :
    (∀ r ∈ db, r.pk ≠ h.pk → r.recurring_group_id = some g →
      today.serial < r.date.serial →
      ∀ r2 ∈ holidaySaveToggleOff today db h, r2.pk ≠ r.pk)
    ∧ (today.serial < h.date.serial →
        ∀ r2 ∈ holidaySaveToggleOff today db h, r2.pk ≠ h.pk)
    ∧ (∀ r ∈ db, r.pk ≠ h.pk → r.recurring_group_id = some g →
        r.date.serial ≤ today.serial →
        ({ r with is_recurring := false, recurring_group_id := none })
          ∈ holidaySaveToggleOff today db h)
    ∧ (h.date.serial ≤ today.serial → h.pk ∈ db.map HolidayRow.pk →
        ({ h with is_recurring := false, recurring_group_id := none })
          ∈ holidaySaveToggleOff today db h)
    ∧ (∀ r ∈ db, r.pk ≠ h.pk → r.recurring_group_id ≠ some g →
        r ∈ holidaySaveToggleOff today db h)
    ∧ (∀ r2 ∈ holidaySaveToggleOff today db h, r2.pk ∈ db.map HolidayRow.pk) := by
  rw [toggleOff_eq today db h g hg]
  have hpk_upd : ∀ r : HolidayRow,
      ((if r.pk = h.pk then { h with is_recurring := false } else r) : HolidayRow).pk = r.pk := by
    intro r
    by_cases hc : r.pk = h.pk
    · rw [if_pos hc]
      exact hc.symm
    · rw [if_neg hc]
  have hpk_clear : ∀ r : HolidayRow,
      ((if r.recurring_group_id = some g then
        { r with is_recurring := false, recurring_group_id := none } else r) : HolidayRow).pk
        = r.pk := by
    intro r
    by_cases hc : r.recurring_group_id = some g
    · rw [if_pos hc]
    · rw [if_neg hc]
  refine ⟨?_, ?_, ?_, ?_, ?_, ?_⟩
  · intro r hr hpk hgid hfut r2 hr2
    rcases List.mem_map.mp hr2 with ⟨r1, hr1, rfl⟩
    rcases List.mem_filter.mp hr1 with ⟨hr1m, hkeep⟩
    rcases List.mem_map.mp hr1m with ⟨r0, hr0, rfl⟩
    intro hpkeq
    have hchain : r0.pk = r.pk := by
      rw [← hpk_upd r0,
        ← hpk_clear (if r0.pk = h.pk then { h with is_recurring := false } else r0)]
      exact hpkeq
    have hr0r : r0 = r := List.inj_on_of_nodup_map hnodup hr0 hr hchain
    subst hr0r
    rw [if_neg hpk] at hkeep
    simp [hgid, hfut] at hkeep
  · intro hfut r2 hr2
    rcases List.mem_map.mp hr2 with ⟨r1, hr1, rfl⟩
    rcases List.mem_filter.mp hr1 with ⟨hr1m, hkeep⟩
    rcases List.mem_map.mp hr1m with ⟨r0, hr0, rfl⟩
    intro hpkeq
    have hchain : r0.pk = h.pk := by
      rw [← hpk_upd r0,
        ← hpk_clear (if r0.pk = h.pk then { h with is_recurring := false } else r0)]
      exact hpkeq
    rw [if_pos hchain] at hkeep
    simp [hfut] at hkeep
    exact hkeep hg
  · intro r hr hpk hgid hpast
    refine List.mem_map.mpr ⟨r, List.mem_filter.mpr ⟨?_, ?_⟩, ?_⟩
    · refine List.mem_map.mpr ⟨r, hr, ?_⟩
      rw [if_neg hpk]
    · simp [hgid]
      omega
    · rw [if_pos hgid]
  · intro hpast hmem
    rcases List.mem_map.mp hmem with ⟨r0, hr0, hpk0⟩
    refine List.mem_map.mpr ⟨{ h with is_recurring := false }, List.mem_filter.mpr ⟨?_, ?_⟩, ?_⟩
    · refine List.mem_map.mpr ⟨r0, hr0, ?_⟩
      rw [if_pos hpk0]
    · have hgid2 : (({ h with is_recurring := false } : HolidayRow)).recurring_group_id
          = some g := hg
      simp [hgid2]
      omega
    · have hgid2 : (({ h with is_recurring := false } : HolidayRow)).recurring_group_id
          = some g := hg
      rw [if_pos hgid2]
  · intro r hr hpk hgid
    refine List.mem_map.mpr ⟨r, List.mem_filter.mpr ⟨?_, ?_⟩, ?_⟩
    · refine List.mem_map.mpr ⟨r, hr, ?_⟩
      rw [if_neg hpk]
    · simp [hgid]
    · rw [if_neg hgid]
  · intro r2 hr2
    rcases List.mem_map.mp hr2 with ⟨r1, hr1, rfl⟩
    rcases List.mem_filter.mp hr1 with ⟨hr1m, _⟩
    rcases List.mem_map.mp hr1m with ⟨r0, hr0, rfl⟩
    refine List.mem_map.mpr ⟨r0, hr0, ?_⟩
    rw [hpk_clear (if r0.pk = h.pk then { h with is_recurring := false } else r0), hpk_upd r0]

/-- The fixed "today" of the C8 example. -/
def todayC8 : Date := Date.mk 2026 1 15

/-- A group-4 member dated before today (the row being toggled). -/
def memberPastC8 : HolidayRow :=
  HolidayRow.mk 1 (Date.mk 2026 1 10) "Festival" "" true (some 4) "" false true false

/-- A group-4 member dated after today. -/
def memberFutureC8 : HolidayRow :=
  HolidayRow.mk 2 (Date.mk 2027 1 10) "Festival" "" true (some 4) "" false true false

/-- A holiday outside the group. -/
def otherC8 : HolidayRow :=
  HolidayRow.mk 3 (Date.mk 2026 5 1) "May Day" "" false none ("") false true false

/-- C8 witness: toggling recurrence off on the past-dated member keeps it
with only the recurrence fields cleared, keeps the non-member untouched,
and removes exactly the future-dated member (pks 1 and 3 remain). -/
theorem C8_witness :
    ({ memberPastC8 with is_recurring := false, recurring_group_id := none }
        ∈ holidaySaveToggleOff todayC8 [memberPastC8, memberFutureC8, otherC8] memberPastC8)
    ∧ otherC8 ∈ holidaySaveToggleOff todayC8 [memberPastC8, memberFutureC8, otherC8] memberPastC8
    ∧ (holidaySaveToggleOff todayC8 [memberPastC8, memberFutureC8, otherC8] memberPastC8).map
        HolidayRow.pk = [1, 3] :=
  ⟨(C8_theorem todayC8 [memberPastC8, memberFutureC8, otherC8] memberPastC8 4 rfl
      (by decide)).2.2.2.1 (by decide) (by decide),
    (C8_theorem todayC8 [memberPastC8, memberFutureC8, otherC8] memberPastC8 4 rfl
      (by decide)).2.2.2.2.1 otherC8 (by decide) (by decide) (by decide),
    by decide⟩
